import Mathlib

/-!
# Verification of the ClickUp dashboard's classification and aggregation core

This file gives a shallow embedding, in Lean 4, of the pure computational
core of `src/app.py` (a Streamlit analytics dashboard over the ClickUp API):

* `filter_tasks_by_date` (app.py lines 115-136) — the date-window filter;
* `categorize_tasks`     (app.py lines 138-163) — the status classifier;
* `get_task_assignees`   (app.py lines 165-182) — the assignee indexer;
* `get_priority_display` (app.py lines 194-216) — the priority normalizer;
* the completion-rate computation (app.py lines 442-445);
* `members_with_completion`, the ranked workload table (app.py lines 531-537).

Python values that flow through these functions are modelled explicitly:
timestamp fields carry either a string or an integer (`TVal`), priority
fields may additionally be `None`, a mapping, or some other non-coercible
object (`PVal`).  Python truthiness (`if x:`) and `int(...)` coercion are
modelled by explicit functions; Python's stable `list.sort(..., reverse=True)`
is modelled by a stable descending insertion sort.  Scope notes: strings are
treated at ASCII granularity for `.lower()` and `int()` (all string constants
appearing in the source are ASCII), and floating-point inputs are outside the
model (no claim below depends on them).
-/

namespace ClickUp

/-- A timestamp-field value as delivered by the API: a string or a number
(spec §3: "a millisecond-epoch timestamp encoded as a string or number"). -/
inductive TVal where
  | s (str : String)
  | n (num : Int)
deriving DecidableEq, Repr

/-- Python truthiness of a `TVal`: empty string and zero are falsy. -/
def tvTruthy : TVal → Bool
  | .s str => str ≠ ""
  | .n num => num ≠ 0

/-- Python truthiness of `task.get(field)`: an absent field gives `None`,
which is falsy. -/
def optTruthy (o : Option TVal) : Bool :=
  match o with
  | some v => tvTruthy v
  | none => false

/-- ASCII lowercasing of one character, as Python `str.lower()` does on
ASCII letters. -/
def lowerChar (c : Char) : Char :=
  if 'A' ≤ c ∧ c ≤ 'Z' then Char.ofNat (c.toNat + 32) else c

/-- Python `s.lower()` (ASCII fragment). -/
def pyLower (s : String) : String :=
  ⟨s.data.map lowerChar⟩

/-- `startsWithChars needle hay`: does `hay` start with `needle`? -/
def startsWithChars : List Char → List Char → Bool
  | [], _ => true
  | _ :: _, [] => false
  | a :: as, b :: bs => a = b && startsWithChars as bs

/-- `infixChars needle hay`: does `needle` occur contiguously in `hay`?
Models Python's substring test `needle in hay`. -/
def infixChars (needle : List Char) : List Char → Bool
  | [] => startsWithChars needle []
  | c :: rest => startsWithChars needle (c :: rest) || infixChars needle rest

/-- Python `needle in hay` on strings (substring containment). -/
def strContains (hay needle : String) : Bool :=
  infixChars needle.data hay.data

/-- Helper for `pyIntStr`: parse a digit run in which every underscore must
be flanked by digits (Python's integer-literal grouping rule).  `prev` is
true when the previous character was a digit; the run must end on a digit. -/
def parseDigits : List Char → Nat → Bool → Option Nat
  | [], acc, true => some acc
  | [], _, false => none
  | c :: cs, acc, prev =>
    if c.isDigit then parseDigits cs (acc * 10 + (c.toNat - 48)) true
    else if c = '_' then (if prev then parseDigits cs acc false else none)
    else none

/-- ASCII whitespace, as stripped by Python `int(str)`. -/
def isPySpace (c : Char) : Bool :=
  c = ' ' || c = '\t' || c = '\n' || c = '\r'

/-- Python `int(s)` on a string: strip whitespace, optional sign, digits
(ASCII fragment); `none` models the `ValueError` raised on anything else. -/
def pyIntStr (s : String) : Option Int :=
  let l := ((s.data.dropWhile isPySpace).reverse.dropWhile isPySpace).reverse
  match l with
  | '+' :: rest => (parseDigits rest 0 false).map Int.ofNat
  | '-' :: rest => (parseDigits rest 0 false).map (fun k => -(Int.ofNat k))
  | rest => (parseDigits rest 0 false).map Int.ofNat

/-- Python `int(v)` on a timestamp value: numbers coerce to themselves,
strings are parsed; `none` models a raised `ValueError`. -/
def pyIntTV : TVal → Option Int
  | .n k => some k
  | .s str => pyIntStr str

/-- The status object of a task: JSON keys `"status"` (the display name,
called `status.name` in the spec) and `"type"`. -/
structure StatusObj where
  sname : Option String
  stype : Option String
deriving DecidableEq, Repr

/-- A person attached to a task (`assignees` entries): JSON keys `"id"`,
`"username"`, `"email"`, `"color"`.  The id is a `TVal` because the code
only compares it and tests its truthiness. -/
structure Assignee where
  id : Option TVal
  username : Option String
  email : Option String
  color : Option String
deriving DecidableEq, Repr

/-- A task record, restricted to the fields the core functions consult. -/
structure Task where
  status : Option StatusObj
  date_closed : Option TVal
  date_done : Option TVal
  assignees : List Assignee
deriving DecidableEq, Repr

/-- The four status categories (spec §3). -/
inductive Category where
  | to_do
  | in_progress
  | completed
  | closed
deriving DecidableEq, Repr

/-- The per-task rule chain of `categorize_tasks` (app.py lines 147-161):
`status_name`/`status_type` are read with empty-string defaults and
lowercased; then the `if/elif` chain is evaluated top to bottom. -/
def classify (t : Task) : Category :=
  let so := t.status.getD ⟨none, none⟩
  let status_name := pyLower (so.sname.getD "")
  let status_type := pyLower (so.stype.getD "")
  if optTruthy t.date_closed then .closed
  else if status_type = "done" ∨ status_type = "closed" then .completed
  else if strContains status_name "progress" ∨ strContains status_name "active"
          ∨ status_type = "active" then .in_progress
  else if strContains status_type "open" ∨ strContains status_name "to do"
          ∨ status_name = "to do" then .to_do
  else .to_do

/-- The four category buckets built by `categorize_tasks`. -/
structure Categories where
  to_do : List Task
  in_progress : List Task
  completed : List Task
  closed : List Task
deriving DecidableEq, Repr

/-- One loop iteration of `categorize_tasks`: append the task to the bucket
selected by the rule chain. -/
def addToCategory (c : Categories) (t : Task) : Categories :=
  match classify t with
  | .to_do => { c with to_do := c.to_do ++ [t] }
  | .in_progress => { c with in_progress := c.in_progress ++ [t] }
  | .completed => { c with completed := c.completed ++ [t] }
  | .closed => { c with closed := c.closed ++ [t] }

/-- `categorize_tasks` (app.py lines 138-163): partition a task list into
the four buckets, preserving input order inside each bucket. -/
def categorize_tasks (tasks : List Task) : Categories :=
  tasks.foldl addToCategory ⟨[], [], [], []⟩

/-- A task with `date_closed` set (a truthy timestamp string) and an
"active"-typed "In Progress" status: the closed-precedence test subject. -/
def taskClosedActive : Task :=
  { status := some ⟨some "In Progress", some "active"⟩,
    date_closed := some (.s "1700000000000"),
    date_done := none,
    assignees := [] }

/-- The same task but with `date_closed` equal to the number `0`: present
(non-null, and not an empty string) yet falsy in Python. -/
def taskZeroClosedActive : Task :=
  { status := some ⟨some "In Progress", some "active"⟩,
    date_closed := some (.n 0),
    date_done := none,
    assignees := [] }

example : classify taskClosedActive = .closed := by decide

example : classify taskZeroClosedActive = .in_progress := by decide

example : classify { status := some ⟨none, some "open"⟩, date_closed := none, date_done := none, assignees := [] } = .to_do := by decide

example : pyIntStr "  1700000000000 " = some 1700000000000 := by decide

example : pyIntStr "oops" = none := by decide

/-- The completion field the loop body of `filter_tasks_by_date` consults
for one task: `date_closed` if truthy, else `date_done` if truthy, else
nothing (`if date_closed: ... elif date_done: ...`, app.py lines 127-134). -/
def consulted (t : Task) : Option TVal :=
  match t.date_closed with
  | some v => if tvTruthy v then some v else
      match t.date_done with
      | some w => if tvTruthy w then some w else none
      | none => none
  | none =>
      match t.date_done with
      | some w => if tvTruthy w then some w else none
      | none => none

/-- The loop of `filter_tasks_by_date` once the bounds `lo ≤ ts ≤ hi` are
fixed.  `Except.error` models the uncaught `ValueError` that `int(...)`
raises on a truthy but non-numeric field value. -/
def filterLoop (lo hi : Int) : List Task → Except Unit (List Task)
  | [] => Except.ok []
  | t :: ts =>
    match consulted t with
    | none => filterLoop lo hi ts
    | some v =>
      match pyIntTV v with
      | none => Except.error ()
      | some ts' =>
        match filterLoop lo hi ts with
        | Except.error e => Except.error e
        | Except.ok rest =>
          Except.ok (if lo ≤ ts' ∧ ts' ≤ hi then t :: rest else rest)

/-- `filter_tasks_by_date` (app.py lines 115-136).  The date arguments are
taken at day granularity as in spec §4.4: `startMs` and `endMs` are the
millisecond epoch timestamps of the start of the start day and of the start
of the end day (`int(d.timestamp() * 1000)` for a midnight datetime).  Line
120 then adds `24*60*60*1000 - 1` to the end bound. -/
def filter_tasks_by_date (tasks : List Task) (startMs endMs : Int) :
    Except Unit (List Task) :=
  let start_timestamp := startMs
  let end_timestamp := endMs + (24 * 60 * 60 * 1000 - 1)
  filterLoop start_timestamp end_timestamp tasks

/-- The completion timestamp field of claim C4's wording: the first
*present* of `date_closed`, `date_done` — truthiness not consulted. -/
def firstPresentTs (t : Task) : Option TVal :=
  match t.date_closed with
  | some v => some v
  | none => t.date_done

/-- Claim C4's reference filter, following its words: keep exactly the
tasks whose first-present completion timestamp parses to an integer inside
the inclusive range `[startMs, endMs + 86399999]`. -/
def claimFilterC4 (tasks : List Task) (startMs endMs : Int) : List Task :=
  tasks.filter fun t =>
    match firstPresentTs t with
    | some v =>
      match pyIntTV v with
      | some ts' => decide (startMs ≤ ts' ∧ ts' ≤ endMs + 86399999)
      | none => false
    | none => false

/-- Does the first truthy completion field of `t` parse into the inclusive
range `[lo, hi]`? -/
def hitRange (lo hi : Int) (t : Task) : Bool :=
  match consulted t with
  | some v =>
    match pyIntTV v with
    | some k => decide (lo ≤ k ∧ k ≤ hi)
    | none => false
  | none => false

/-- The qualifying predicate actually implemented by the code: the first
*truthy* completion field, parsed, must land in the inclusive range
`[startMs, endMs + 86399999]`. -/
def qualifies (startMs endMs : Int) (t : Task) : Bool :=
  hitRange startMs (endMs + 86399999) t

/-- A task collection is well formed for the filter when every consulted
field value parses as an integer (so `int(...)` cannot raise). -/
def filterWellFormed (tasks : List Task) : Prop :=
  ∀ t ∈ tasks, ∀ v, consulted t = some v → (pyIntTV v).isSome

instance (tasks : List Task) : Decidable (filterWellFormed tasks) := by
  unfold filterWellFormed
  infer_instance

/-- A raw priority value as `get_priority_display` may receive it:
Python `None`, an integer, a string, a mapping, or some other
non-`int()`-coercible object whose truthiness is `t`.  Of a mapping, the
code only reads `.get('priority')` and `.get('id')` — and Python's `.get`
returns `None` both for an absent key and for a key mapped to `None`, so
those two cases are collapsed: `pr`/`pid` are the results of the two `.get`
calls, with `pnull` standing for "absent or null".  `nonempty` records
whether the mapping has any key at all (its Python truthiness). -/
inductive PVal where
  | pnull
  | pint (n : Int)
  | pstr (s : String)
  | pdict (pr : PVal) (pid : PVal) (nonempty : Bool)
  | pother (t : Bool)
deriving DecidableEq, Repr

/-- Python truthiness of a `PVal` (`None`, `0`, `""` and the empty mapping
are falsy). -/
def pvTruthy : PVal → Bool
  | .pnull => false
  | .pint n => n ≠ 0
  | .pstr s => s ≠ ""
  | .pdict _ _ nonempty => nonempty
  | .pother t => t

/-- Python `int(v)` on a priority value; `none` models the
`ValueError`/`TypeError` that line 215 catches. -/
def pyIntPV : PVal → Option Int
  | .pint n => some n
  | .pstr s => pyIntStr s
  | _ => none

/-- The mapping unwrap on line 200:
`priority = priority.get('priority') or priority.get('id')`.
Python `x or y` yields `y` whenever `x` is falsy. -/
def dictUnwrap (pr pid : PVal) : PVal :=
  if pvTruthy pr then pr else pid

/-- The lookup `priority_map.get(priority_num, "⚪ None")` (app.py lines
205-214), applied to the result of the guarded `int(priority)`: `none`
stands for the caught `ValueError`/`TypeError` of lines 212-216. -/
def priorityTable (k : Option Int) : String :=
  match k with
  | none => "⚪ None"
  | some num =>
    if num = 1 then "🔴 Urgent"
    else if num = 2 then "🟠 High"
    else if num = 3 then "🟡 Normal"
    else if num = 4 then "🔵 Low"
    else "⚪ None"

/-- `get_priority_display` (app.py lines 194-216), returning the exact
display strings of the source. -/
def get_priority_display (priority : PVal) : String :=
  if priority = .pnull then "⚪ None"
  else
    let priority := match priority with
      | .pdict pr pid _ => dictUnwrap pr pid
      | p => p
    if priority = .pnull then "⚪ None"
    else priorityTable (pyIntPV priority)

/-- The five canonical priority levels of spec §3. -/
inductive PriorityLevel where
  | urgent
  | high
  | normal
  | low
  | nolevel
deriving DecidableEq, Repr

/-- The display string the source uses for each priority level. -/
def PriorityLevel.display : PriorityLevel → String
  | .urgent => "🔴 Urgent"
  | .high => "🟠 High"
  | .normal => "🟡 Normal"
  | .low => "🔵 Low"
  | .nolevel => "⚪ None"

/-- The `{1: urgent, 2: high, 3: normal, 4: low}` table on priority levels,
defaulting to no level. -/
def levelTable (k : Option Int) : PriorityLevel :=
  match k with
  | none => .nolevel
  | some num =>
    if num = 1 then .urgent
    else if num = 2 then .high
    else if num = 3 then .normal
    else if num = 4 then .low
    else .nolevel

/-- Coerce one value to a priority level through Python `int(...)` and the
`{1,2,3,4}` table; anything else degrades to no level. -/
def coerceLevel (v : PVal) : PriorityLevel :=
  levelTable (pyIntPV v)

/-- Claim C3's reference definition of `normalize_priority`, following the
claim's words: absent input yields no level; a mapping *recurses* on its
`priority` field, falling back to `id` only when `priority` is *absent*,
with no level when both are absent; otherwise coerce through the
`{1,2,3,4}` table. -/
def normalize_priority_claim : PVal → PriorityLevel
  | .pnull => .nolevel
  | .pdict pr pid _ =>
    match pr with
    | .pnull =>
      match pid with
      | .pnull => .nolevel
      | v => normalize_priority_claim v
    | v => normalize_priority_claim v
  | v => coerceLevel v

/-- The amended reference definition: absent input yields no level; a
mapping yields its `priority` field if that field is present and truthy,
otherwise its `id` field (or `None`); the extracted value is coerced once,
without recursion, so a nested mapping degrades to no level. -/
def normalize_priority_ref : PVal → PriorityLevel
  | .pnull => .nolevel
  | .pdict pr pid _ =>
    match dictUnwrap pr pid with
    | .pnull => .nolevel
    | v => coerceLevel v
  | v => coerceLevel v

example : get_priority_display (.pdict (.pint 0) (.pint 3) true)
    = "🟡 Normal" := by decide

example : normalize_priority_claim (.pdict (.pint 0) (.pint 3) true)
    = .nolevel := by decide

example : get_priority_display (.pdict (.pdict (.pint 1) .pnull true) .pnull true)
    = "⚪ None" := by decide

example : normalize_priority_claim (.pdict (.pdict (.pint 1) .pnull true) .pnull true)
    = .urgent := by decide

/-- One entry of the assignee index: the displayed profile (with the
defaults of app.py lines 174-176 substituted) and the accumulated task
list. -/
structure UserEntry where
  name : String
  email : String
  color : String
  tasks : List Task
deriving DecidableEq, Repr

/-- The assignee index: a Python dict from user id to entry.  Python dicts
preserve insertion order, so the index is an association list with unique
keys, new keys appended at the end. -/
abbrev AIndex := List (TVal × UserEntry)

/-- Does the dict have the key `uid` (`user_id in assignees_dict`)? -/
def hasKey : AIndex → TVal → Bool
  | [], _ => false
  | (k, _) :: rest, uid => k = uid || hasKey rest uid

/-- The task list stored under `uid`, or `[]` when the key is absent. -/
def entryTasks (uid : TVal) : AIndex → List Task
  | [] => []
  | (k, e) :: rest => if k = uid then e.tasks else entryTasks uid rest

/-- Append a task to the entry under `uid`
(`assignees_dict[user_id]["tasks"].append(task)`). -/
def appendTask (uid : TVal) (t : Task) : AIndex → AIndex
  | [] => []
  | (k, e) :: rest =>
    if k = uid then (k, { e with tasks := e.tasks ++ [t] }) :: rest
    else (k, e) :: appendTask uid t rest

/-- The fresh entry inserted for a first-seen user id (app.py lines
173-178): display defaults substituted for missing `username`/`email`/
`color`, and an empty task list. -/
def freshEntry (a : Assignee) : UserEntry :=
  { name := a.username.getD "Unknown",
    email := a.email.getD "N/A",
    color := a.color.getD "#7B68EE",
    tasks := [] }

/-- Process one assignee record of one task (app.py lines 170-180):
`user_id = assignee.get("id")`; if truthy and not yet a key, insert a fresh
entry; if truthy, append the task to that user's list. -/
def indexStep (t : Task) (d : AIndex) (a : Assignee) : AIndex :=
  match a.id with
  | none => d
  | some uid =>
    if tvTruthy uid then
      if hasKey d uid then appendTask uid t d
      else appendTask uid t (d ++ [(uid, freshEntry a)])
    else d

/-- `get_task_assignees` (app.py lines 165-182): fold the double loop over
tasks and their assignee records, starting from the empty dict. -/
def get_task_assignees (tasks : List Task) : AIndex :=
  tasks.foldl (fun d t => t.assignees.foldl (indexStep t) d) []

/-- How often `uid` occurs among a list of assignee records, counted only
when `uid` is truthy (a falsy id is never indexed). -/
def matchCountL (uid : TVal) (as : List Assignee) : Nat :=
  if tvTruthy uid then (as.filter fun a => decide (a.id = some uid)).length
  else 0

/-- How often `uid` occurs (truthily) among the assignee records of one
task — the number of times the inner loop appends that task under `uid`. -/
def matchCount (uid : TVal) (t : Task) : Nat :=
  matchCountL uid t.assignees

/-- Occurrence count of `x` in a list, via `DecidableEq`. -/
def countOcc {α : Type} [DecidableEq α] (x : α) (l : List α) : Nat :=
  (l.filter fun y => decide (y = x)).length

/-- The period-completion count of member `uid` (app.py lines 533-535):
how many tasks of the period-filtered set list an assignee record whose id
equals `uid`. -/
def userCompletedCount (uid : TVal) (completed : List Task) : Nat :=
  (completed.filter fun t => t.assignees.any fun a => decide (a.id = some uid)).length

/-- One row of the workload ranking: `(user_id, user_data, completion_count)`
as built on app.py line 535. -/
abbrev MemberRow := TVal × UserEntry × Nat

/-- The sort key of app.py line 537: the period-completion count. -/
def rowCount (r : MemberRow) : Nat := r.2.2

/-- Stable descending insertion: place `x` after every already-placed row
with a strictly larger or equal count coming from earlier in the list —
i.e. `x` goes before the first row whose count is not larger.  Because
`sortDescRows` inserts from the right, a row is placed *before* all
equal-count rows that follow it in the input, which is exactly the
stability guarantee of Python's `list.sort(key=..., reverse=True)`. -/
def insertDescRow (x : MemberRow) : List MemberRow → List MemberRow
  | [] => [x]
  | y :: ys => if rowCount x < rowCount y then y :: insertDescRow x ys else x :: y :: ys

/-- Stable sort by count, descending: the model of
`members_with_completion.sort(key=lambda x: x[2], reverse=True)`. -/
def sortDescRows : List MemberRow → List MemberRow
  | [] => []
  | x :: xs => insertDescRow x (sortDescRows xs)

/-- `members_with_completion` (app.py lines 531-537): one row per index
entry, in index order, then the stable descending sort by count. -/
def members_with_completion (assignees : AIndex) (completed_in_period : List Task) :
    List MemberRow :=
  sortDescRows (assignees.map fun p => (p.1, p.2, userCompletedCount p.1 completed_in_period))

/-- The completion rate (app.py lines 442-445): computed only under
`if total_tasks > 0`, as the fraction `(completed + closed) / total`
(the code scales it by 100 for display and immediately divides by 100
again for the progress bar; the fraction is the value modelled).  When the
list is empty the guard fails and no rate is produced at all. -/
def completion_rate (tasks : List Task) : Option ℚ :=
  let categories := categorize_tasks tasks
  if tasks.length > 0 then
    some ((((categories.completed.length + categories.closed.length : ℚ) / tasks.length) * 100) / 100)
  else none

example : get_task_assignees [] = [] := by decide

example : completion_rate [] = none := by decide

/-- The five tasks of the round-trip aggregation scenario (spec §8):
two `status.type = "done"`, one with `date_closed` set and
`status.name = "In Progress"`, one with `status.name = "To Do"`, one with
`status.type = "open"` and no other fields. -/
def scenarioTasks : List Task :=
  [ { status := some ⟨some "Review", some "done"⟩, date_closed := none,
      date_done := none, assignees := [] },
    { status := some ⟨some "Finished", some "done"⟩, date_closed := none,
      date_done := none, assignees := [] },
    { status := some ⟨some "In Progress", some "custom"⟩,
      date_closed := some (.s "1700000000000"), date_done := none, assignees := [] },
    { status := some ⟨some "To Do", none⟩, date_closed := none,
      date_done := none, assignees := [] },
    { status := some ⟨none, some "open"⟩, date_closed := none,
      date_done := none, assignees := [] } ]

/-! ## The date-window filter: claims C4 and C5 -/

/-- A task whose `date_closed` is the number `0` (present and parseable,
but falsy in Python) while `date_done` holds an in-range timestamp. -/
def taskZeroDone : Task :=
  { status := none,
    date_closed := some (.n 0),
    date_done := some (.n 5),
    assignees := [] }

/-- A task whose `date_closed` is a truthy string that `int(...)` cannot
parse. -/
def taskBadTimestamp : Task :=
  { status := none,
    date_closed := some (.s "not-a-number"),
    date_done := none,
    assignees := [] }

/-- C4 as written is refuted by the falsy timestamp `0`: the first
*present* completion field of `taskZeroDone` is `date_closed = 0`, which
lies outside the window `[1, 1 + 86399999]`, so the claim excludes the
task — but line 127 tests Python truthiness (`if date_closed:`), falls
through to `date_done = 5`, and the code keeps the task. -/
theorem claim4_counterexample :
    firstPresentTs taskZeroDone = some (TVal.n 0) ∧
    claimFilterC4 [taskZeroDone] 1 1 = [] ∧
    filter_tasks_by_date [taskZeroDone] 1 1 = Except.ok [taskZeroDone] :=
  ⟨rfl, rfl, rfl⟩

/-- The loop of `filter_tasks_by_date`: when every consulted field value
parses, the loop succeeds and keeps exactly the tasks hitting `[lo, hi]`,
in input order. -/
theorem filterLoop_ok (lo hi : Int) (tasks : List Task)
    (h : ∀ t ∈ tasks, ∀ v, consulted t = some v → (pyIntTV v).isSome) :
    filterLoop lo hi tasks = Except.ok (tasks.filter (hitRange lo hi)) := by
  induction tasks with
  | nil => rfl
  | cons t ts ih =>
    have hts : ∀ t' ∈ ts, ∀ v, consulted t' = some v → (pyIntTV v).isSome :=
      fun t' ht' => h t' (List.mem_cons_of_mem t ht')
    unfold filterLoop
    cases hc : consulted t with
    | none => simp [List.filter_cons, hitRange, hc, ih hts]
    | some v =>
      rcases hv : pyIntTV v with _ | k
      · have := h t (List.mem_cons_self t ts) v hc
        rw [hv] at this
        exact absurd this (by simp)
      · rw [ih hts]
        by_cases hin : lo ≤ k ∧ k ≤ hi <;>
          simp [List.filter_cons, hitRange, hc, hv, hin]

/-- C4 (amended): on a collection whose consulted completion values all
parse, `filter_tasks_by_date` keeps exactly those tasks whose first
*truthy* completion field (`date_closed` if truthy, else `date_done`;
a falsy value such as `0` or `""` is skipped, not consulted) parses into
the inclusive millisecond range
`[startMs, endMs + 86,399,999]` — both bounds included, one millisecond
outside either bound excluded, tasks with no truthy field excluded —
preserving input order. -/
theorem claim4_window (tasks : List Task) (startMs endMs : Int)
    (h : filterWellFormed tasks) :
    filter_tasks_by_date tasks startMs endMs
      = Except.ok (tasks.filter (qualifies startMs endMs)) := by
  unfold filter_tasks_by_date qualifies
  have hnum : (24 * 60 * 60 * 1000 - 1 : Int) = 86399999 := by norm_num
  rw [hnum]
  exact filterLoop_ok startMs (endMs + 86399999) tasks h

/-- The boundary demonstration collection for the window `[0, 0]` (range
`[0, 86399999]`): a task exactly at the lower bound, one exactly at the
upper bound, one a millisecond below, one a millisecond above, and one
with no completion field. -/
def demoTasks : List Task :=
  [ { status := none, date_closed := some (.s "0"), date_done := none, assignees := [] },
    { status := none, date_closed := some (.n 86399999), date_done := none, assignees := [] },
    { status := none, date_closed := some (.s "-1"), date_done := none, assignees := [] },
    { status := none, date_closed := some (.n 86400000), date_done := none, assignees := [] },
    { status := none, date_closed := none, date_done := none, assignees := [] } ]

/-- Witness for C4: on the boundary collection, exactly the two tasks on
the bounds are kept — equal to a bound is included, one millisecond
outside is excluded, absent fields are excluded. -/
theorem claim4_witness :
    filter_tasks_by_date demoTasks 0 0
      = Except.ok
        [ { status := none, date_closed := some (.s "0"), date_done := none, assignees := [] },
          { status := none, date_closed := some (.n 86399999), date_done := none, assignees := [] } ] := by
  have h := claim4_window demoTasks 0 0 (by decide)
  simpa [demoTasks] using h

/-- C5: the claim is right and the code is wrong.  A truthy `date_closed`
that does not parse as an integer makes `int(date_closed)` on line 128
raise `ValueError`, which nothing catches — the spec (§7) requires
malformed field values to be recovered locally and never propagated, and
the code's own sibling helpers (`format_date`, `get_priority_display`)
wrap the same coercion in `try/except`. -/
theorem claim5_raises :
    filter_tasks_by_date [taskBadTimestamp] 0 0 = Except.error () := rfl

/-! ## The priority normalizer: claim C3 -/

/-- The display-string table agrees pointwise with the level table. -/
theorem priorityTable_display (k : Option Int) :
    priorityTable k = (levelTable k).display := by
  rcases k with _ | num
  · rfl
  · by_cases h1 : num = 1
    · simp [priorityTable, levelTable, h1, PriorityLevel.display]
    by_cases h2 : num = 2
    · simp [priorityTable, levelTable, h1, h2, PriorityLevel.display]
    by_cases h3 : num = 3
    · simp [priorityTable, levelTable, h1, h2, h3, PriorityLevel.display]
    by_cases h4 : num = 4
    · simp [priorityTable, levelTable, h1, h2, h3, h4, PriorityLevel.display]
    simp [priorityTable, levelTable, h1, h2, h3, h4, PriorityLevel.display]

/-- C3 as written is refuted twice by the actual fallback logic of line
200 (`priority.get('priority') or priority.get('id')`).  First, a mapping
with `priority = 0` and `id = 3`: the claim's reference recursion gives no
level (`0` is present, and `0` is not in the table), but the code's `or`
falls through on the falsy `0` and displays Normal from the `id` field.
Second, a mapping nesting another mapping under `priority`: the claim's
reference recurses to `urgent`, but the code coerces the inner mapping
once with `int(...)`, which raises `TypeError` (caught), displaying None. -/
theorem claim3_counterexample :
    normalize_priority_claim (.pdict (.pint 0) (.pint 3) true) = .nolevel ∧
    get_priority_display (.pdict (.pint 0) (.pint 3) true) = "🟡 Normal" ∧
    PriorityLevel.nolevel.display = "⚪ None" ∧
    normalize_priority_claim (.pdict (.pdict (.pint 1) .pnull true) .pnull true)
      = .urgent ∧
    get_priority_display (.pdict (.pdict (.pint 1) .pnull true) .pnull true)
      = "⚪ None" := by
  decide

/-- C3 (amended): `get_priority_display` equals the reference definition
`normalize_priority_ref` (rendered through the display table) on every
input — where the reference falls back from the `priority` field to the
`id` field whenever `priority` is absent or falsy, and coerces the
extracted value exactly once (a nested mapping degrades to no level).  In
particular the function is total: every input, however malformed, yields
one of the five levels and no exception escapes. -/
theorem claim3_normalize (p : PVal) :
    get_priority_display p = (normalize_priority_ref p).display := by
  cases p with
  | pnull => rfl
  | pint n =>
    simpa [get_priority_display, normalize_priority_ref, coerceLevel] using
      priorityTable_display (pyIntPV (.pint n))
  | pstr s =>
    by_cases h : PVal.pstr s = PVal.pnull
    · exact absurd h (by simp)
    simpa [get_priority_display, normalize_priority_ref, coerceLevel, h] using
      priorityTable_display (pyIntPV (.pstr s))
  | pother t =>
    simpa [get_priority_display, normalize_priority_ref, coerceLevel] using
      priorityTable_display (pyIntPV (.pother t))
  | pdict pr pid ne =>
    show (if PVal.pdict pr pid ne = .pnull then "⚪ None"
      else if dictUnwrap pr pid = .pnull then "⚪ None"
      else priorityTable (pyIntPV (dictUnwrap pr pid)))
      = (normalize_priority_ref (.pdict pr pid ne)).display
    rcases hu : dictUnwrap pr pid with _ | n | s | ⟨p1, p2, b⟩ | t <;>
      simp [normalize_priority_ref, hu, coerceLevel, priorityTable_display,
        PriorityLevel.display]

/-! ## The status classifier: claims C1, C2, C7 -/

/-- C1 as written is refuted by the timestamp `0`: this task's
`date_closed` is present — the number `0`, which is neither null nor an
empty string — and its `status.type` is `"active"`, yet the rule chain
classifies it as `in_progress`, because line 152 tests Python truthiness
(`if task.get("date_closed"):`) and `0` is falsy. -/
theorem claim1_counterexample :
    taskZeroClosedActive.date_closed = some (TVal.n 0) ∧
    (taskZeroClosedActive.status.getD ⟨none, none⟩).stype = some "active" ∧
    classify taskZeroClosedActive = Category.in_progress ∧
    classify taskZeroClosedActive ≠ Category.closed := by
  decide

/-- C1 (amended): for every task whose `date_closed` is present and truthy
— non-null, non-empty and non-zero — the rule chain yields `closed`,
whatever the status name and type say (rule 1 is evaluated first). -/
theorem claim1_closed_precedence (t : Task) (v : TVal)
    (hv : t.date_closed = some v) (htr : tvTruthy v = true) :
    classify t = Category.closed := by
  simp only [classify, optTruthy, hv, htr]
  rfl

/-- Witness for C1: `taskClosedActive` has a truthy `date_closed` and an
`"active"` status type, and classifies as `closed`. -/
theorem claim1_witness : classify taskClosedActive = Category.closed :=
  claim1_closed_precedence taskClosedActive (.s "1700000000000") rfl (by decide)

/-- The buckets of `categorize_tasks`, run from any accumulator, extend
each accumulator bucket with exactly the input tasks the rule chain sends
there, in input order. -/
theorem foldl_addToCategory_eq (tasks : List Task) (acc : Categories) :
    tasks.foldl addToCategory acc =
      ⟨acc.to_do ++ tasks.filter (fun t => decide (classify t = .to_do)),
       acc.in_progress ++ tasks.filter (fun t => decide (classify t = .in_progress)),
       acc.completed ++ tasks.filter (fun t => decide (classify t = .completed)),
       acc.closed ++ tasks.filter (fun t => decide (classify t = .closed))⟩ := by
  induction tasks generalizing acc with
  | nil => simp
  | cons t ts ih =>
    rw [List.foldl_cons, ih]
    cases h : classify t <;>
      simp [addToCategory, h, List.filter_cons]

/-- Each task satisfies exactly one of the four classification filters. -/
theorem classify_filter_length (tasks : List Task) :
    (tasks.filter (fun t => decide (classify t = .to_do))).length
      + (tasks.filter (fun t => decide (classify t = .in_progress))).length
      + (tasks.filter (fun t => decide (classify t = .completed))).length
      + (tasks.filter (fun t => decide (classify t = .closed))).length
      = tasks.length := by
  induction tasks with
  | nil => simp
  | cons t ts ih =>
    cases h : classify t <;> simp [List.filter_cons, h] <;> omega

/-- C2: classification is total and exclusive — every bucket of
`categorize_tasks` is the filter of the input along one `classify` value
(so each task lands in exactly one of the four categories), and the four
bucket sizes sum to the size of the collection. -/
theorem claim2_totality (tasks : List Task) :
    (categorize_tasks tasks).to_do = tasks.filter (fun t => decide (classify t = .to_do)) ∧
    (categorize_tasks tasks).in_progress
      = tasks.filter (fun t => decide (classify t = .in_progress)) ∧
    (categorize_tasks tasks).completed
      = tasks.filter (fun t => decide (classify t = .completed)) ∧
    (categorize_tasks tasks).closed = tasks.filter (fun t => decide (classify t = .closed)) ∧
    (categorize_tasks tasks).to_do.length + (categorize_tasks tasks).in_progress.length
      + (categorize_tasks tasks).completed.length + (categorize_tasks tasks).closed.length
      = tasks.length := by
  have h := foldl_addToCategory_eq tasks ⟨[], [], [], []⟩
  unfold categorize_tasks
  rw [h]
  refine ⟨by simp, by simp, by simp, by simp, ?_⟩
  simpa using classify_filter_length tasks

/-- C7: on the five-task scenario, `categorize_tasks` yields the partition
counts `{completed: 2, closed: 1, in_progress: 0, to_do: 2}` — the
closed-precedence rule overrides the "In Progress" name match of the
third task. -/
theorem claim7_scenario :
    (categorize_tasks scenarioTasks).completed.length = 2 ∧
    (categorize_tasks scenarioTasks).closed.length = 1 ∧
    (categorize_tasks scenarioTasks).in_progress.length = 0 ∧
    (categorize_tasks scenarioTasks).to_do.length = 2 := by
  decide

/-! ## The completion rate: claim C8 -/

/-- C8 as written is refuted on the empty collection: the code computes
the rate only under `if total_tasks > 0:` (app.py line 442), so for zero
tasks no rate is produced at all — the value is not `0`, it simply does
not exist (and no caption or progress bar is rendered). -/
theorem claim8_counterexample :
    completion_rate [] = none ∧ completion_rate [] ≠ some 0 := by
  refine ⟨rfl, ?_⟩
  intro h
  simp [completion_rate] at h

/-- C8 (amended): whenever the collection is nonempty the completion rate
equals `(completed + closed) / total` — with `completed` and `closed` the
classifier's bucket sizes — and a single closed task gives exactly `1`;
when the collection is empty the guard fails and no rate is produced
(neither `1` nor a division-by-zero error, but also not `0`). -/
theorem claim8_completion_rate :
    (∀ tasks : List Task,
      completion_rate tasks =
        if tasks.length = 0 then none
        else some ((((tasks.filter (fun t => decide (classify t = .completed))).length
          + (tasks.filter (fun t => decide (classify t = .closed))).length : ℚ))
          / tasks.length)) ∧
    completion_rate [taskClosedActive] = some 1 := by
  constructor
  · intro tasks
    have h := foldl_addToCategory_eq tasks ⟨[], [], [], []⟩
    unfold completion_rate categorize_tasks
    rw [h]
    by_cases h0 : tasks.length = 0
    · simp [h0]
    · have hpos : 0 < tasks.length := Nat.pos_of_ne_zero h0
      simp only [h0, if_false, hpos, if_true, List.nil_append]
      congr 1
      have h100 : (100 : ℚ) ≠ 0 := by norm_num
      field_simp
      ring
  · have h1 : classify taskClosedActive = Category.closed := by decide
    simp [completion_rate, categorize_tasks, List.foldl, addToCategory, h1]

/-! ## The ranked workload table: claim C6 -/

/-- Membership in an insertion is membership in the original list or being
the inserted row. -/
theorem mem_insertDescRow {x y : MemberRow} {l : List MemberRow} :
    y ∈ insertDescRow x l ↔ y = x ∨ y ∈ l := by
  induction l with
  | nil => simp [insertDescRow]
  | cons z zs ih =>
    unfold insertDescRow
    by_cases hc : rowCount x < rowCount z
    · simp only [if_pos hc, List.mem_cons, ih]
      tauto
    · simp only [if_neg hc, List.mem_cons]

/-- Inserting into a descending list keeps it descending. -/
theorem pairwise_insertDescRow (x : MemberRow) (l : List MemberRow)
    (h : l.Pairwise (fun a b => rowCount b ≤ rowCount a)) :
    (insertDescRow x l).Pairwise (fun a b => rowCount b ≤ rowCount a) := by
  induction l with
  | nil => simp [insertDescRow]
  | cons y ys ih =>
    rw [List.pairwise_cons] at h
    unfold insertDescRow
    by_cases hc : rowCount x < rowCount y
    · rw [if_pos hc, List.pairwise_cons]
      refine ⟨fun z hz => ?_, ih h.2⟩
      rcases mem_insertDescRow.mp hz with rfl | hz'
      · exact le_of_lt hc
      · exact h.1 z hz'
    · rw [if_neg hc, List.pairwise_cons]
      push_neg at hc
      refine ⟨fun z hz => ?_, ?_⟩
      · rcases List.mem_cons.mp hz with rfl | hz'
        · exact hc
        · exact le_trans (h.1 z hz') hc
      · rw [List.pairwise_cons]
        exact ⟨h.1, h.2⟩

/-- The stable descending sort produces a descending list. -/
theorem pairwise_sortDescRows (l : List MemberRow) :
    (sortDescRows l).Pairwise (fun a b => rowCount b ≤ rowCount a) := by
  induction l with
  | nil => simp [sortDescRows]
  | cons x xs ih => exact pairwise_insertDescRow x (sortDescRows xs) ih

/-- Inserting a row whose count is `c` puts it in front of every row of
count `c` already present (those rows sit behind the strictly-greater
prefix the insertion skips). -/
theorem filter_insertDescRow_eq (c : Nat) (x : MemberRow) (l : List MemberRow)
    (hx : rowCount x = c) :
    (insertDescRow x l).filter (fun r => decide (rowCount r = c))
      = x :: l.filter (fun r => decide (rowCount r = c)) := by
  induction l with
  | nil => simp [insertDescRow, hx]
  | cons y ys ih =>
    unfold insertDescRow
    by_cases hc : rowCount x < rowCount y
    · have hy : ¬ rowCount y = c := by omega
      rw [if_pos hc]
      simp [List.filter_cons, hy, ih]
    · rw [if_neg hc]
      simp [List.filter_cons, hx]

/-- Inserting a row of a different count leaves a count-`c` filter
unchanged. -/
theorem filter_insertDescRow_ne (c : Nat) (x : MemberRow) (l : List MemberRow)
    (hx : ¬ rowCount x = c) :
    (insertDescRow x l).filter (fun r => decide (rowCount r = c))
      = l.filter (fun r => decide (rowCount r = c)) := by
  induction l with
  | nil => simp [insertDescRow, hx]
  | cons y ys ih =>
    unfold insertDescRow
    by_cases hc : rowCount x < rowCount y
    · rw [if_pos hc]
      simp [List.filter_cons, ih]
    · rw [if_neg hc]
      simp [List.filter_cons, hx]

/-- Stability of the sort: restricted to any one count value, the sorted
list and the input list agree exactly. -/
theorem filter_sortDescRows (l : List MemberRow) (c : Nat) :
    (sortDescRows l).filter (fun r => decide (rowCount r = c))
      = l.filter (fun r => decide (rowCount r = c)) := by
  induction l with
  | nil => rfl
  | cons x xs ih =>
    unfold sortDescRows
    by_cases hx : rowCount x = c
    · rw [filter_insertDescRow_eq c x _ hx, ih]
      simp [List.filter_cons, hx]
    · rw [filter_insertDescRow_ne c x _ hx, ih]
      simp [List.filter_cons, hx]

/-- C6: the ranked workload table is ordered by period-completion count
descending, and rows of equal count appear exactly in the order of the
corresponding entries of the assignee index (first-appearance order) — the
count-`c` restriction of the ranking equals the count-`c` restriction of
the unsorted index rows, for every `c`. -/
theorem claim6_ranking (assignees : AIndex) (completed : List Task) :
    (members_with_completion assignees completed).Pairwise
      (fun a b => rowCount b ≤ rowCount a) ∧
    ∀ c : Nat,
      (members_with_completion assignees completed).filter
          (fun r => decide (rowCount r = c))
        = (assignees.map fun p => (p.1, p.2, userCompletedCount p.1 completed)).filter
            (fun r => decide (rowCount r = c)) := by
  unfold members_with_completion
  exact ⟨pairwise_sortDescRows _, fun c => filter_sortDescRows _ c⟩

/-! ## The assignee indexer: claims C9 and C10 -/

/-- Appending a task to one entry does not change the key set. -/
theorem hasKey_appendTask (target : TVal) (t : Task) (d : AIndex) (uid : TVal) :
    hasKey (appendTask target t d) uid = hasKey d uid := by
  induction d with
  | nil => rfl
  | cons p rest ih =>
    obtain ⟨k, e⟩ := p
    unfold appendTask
    by_cases hk : k = target
    · rw [if_pos hk]
      simp [hasKey]
    · rw [if_neg hk]
      simp [hasKey, ih]

/-- A dict without the key stores no tasks under it. -/
theorem entryTasks_of_hasKey_false (d : AIndex) (uid : TVal)
    (h : hasKey d uid = false) : entryTasks uid d = [] := by
  induction d with
  | nil => rfl
  | cons p rest ih =>
    obtain ⟨k, e⟩ := p
    simp only [hasKey, Bool.or_eq_false_iff, decide_eq_false_iff_not] at h
    unfold entryTasks
    rw [if_neg h.1]
    exact ih h.2

/-- Appending a task under a present key appends it to that entry's list. -/
theorem entryTasks_appendTask_self (t : Task) (d : AIndex) (uid : TVal)
    (h : hasKey d uid = true) :
    entryTasks uid (appendTask uid t d) = entryTasks uid d ++ [t] := by
  induction d with
  | nil => simp [hasKey] at h
  | cons p rest ih =>
    obtain ⟨k, e⟩ := p
    unfold appendTask
    by_cases hk : k = uid
    · rw [if_pos hk]
      simp [entryTasks, hk]
    · rw [if_neg hk]
      simp only [hasKey, Bool.or_eq_true, decide_eq_true_eq] at h
      rcases h with h | h
      · exact absurd h hk
      · simp [entryTasks, hk, ih h]

/-- Appending a task under one key leaves every other entry unchanged. -/
theorem entryTasks_appendTask_ne (target : TVal) (t : Task) (d : AIndex)
    (uid : TVal) (h : target ≠ uid) :
    entryTasks uid (appendTask target t d) = entryTasks uid d := by
  induction d with
  | nil => rfl
  | cons p rest ih =>
    obtain ⟨k, e⟩ := p
    unfold appendTask
    by_cases hk : k = target
    · subst hk
      rw [if_pos rfl]
      simp [entryTasks, h]
    · rw [if_neg hk]
      unfold entryTasks
      by_cases hu : k = uid
      · rw [if_pos hu, if_pos hu]
      · rw [if_neg hu, if_neg hu, ih]

/-- Lookup distributes over dict concatenation: the left part wins when it
has the key. -/
theorem entryTasks_append (d d' : AIndex) (uid : TVal) :
    entryTasks uid (d ++ d')
      = if hasKey d uid then entryTasks uid d else entryTasks uid d' := by
  induction d with
  | nil => simp [hasKey, entryTasks]
  | cons p rest ih =>
    obtain ⟨k, e⟩ := p
    by_cases hk : k = uid
    · simp [entryTasks, hasKey, hk]
    · simp [entryTasks, hasKey, hk, ih]

/-- The key set after concatenation. -/
theorem hasKey_append (d d' : AIndex) (uid : TVal) :
    hasKey (d ++ d') uid = (hasKey d uid || hasKey d' uid) := by
  induction d with
  | nil => simp [hasKey]
  | cons p rest ih =>
    obtain ⟨k, e⟩ := p
    simp [hasKey, ih, Bool.or_assoc]

/-- Effect of one assignee record on one entry's task list: the task is
appended under `uid` exactly when this record carries the (truthy) id
`uid`; every other entry keeps its list. -/
theorem entryTasks_indexStep (t : Task) (d : AIndex) (a : Assignee) (uid : TVal) :
    entryTasks uid (indexStep t d a)
      = entryTasks uid d
        ++ (if a.id = some uid ∧ tvTruthy uid = true then [t] else []) := by
  cases ha : a.id with
  | none => simp [indexStep, ha]
  | some k =>
    simp only [indexStep, ha]
    by_cases htr : tvTruthy k = true
    · rw [if_pos htr]
      by_cases hk : hasKey d k = true
      · rw [if_pos hk]
        by_cases hu : k = uid
        · subst hu
          rw [entryTasks_appendTask_self t d k hk]
          simp [htr]
        · rw [entryTasks_appendTask_ne k t d uid hu]
          have hcond : ¬ (some k = some uid ∧ tvTruthy uid = true) := by
            intro hc
            exact hu (Option.some.inj hc.1)
          simp [hcond]
          intro hq
          exact absurd hq hu
      · rw [if_neg hk]
        rw [Bool.not_eq_true] at hk
        by_cases hu : k = uid
        · subst hu
          have hkey : hasKey (d ++ [(k, freshEntry a)]) k = true := by
            rw [hasKey_append, hk]
            simp [hasKey]
          rw [entryTasks_appendTask_self t _ k hkey, entryTasks_append, hk]
          simp [entryTasks, freshEntry, entryTasks_of_hasKey_false d k hk, htr]
        · rw [entryTasks_appendTask_ne k t _ uid hu, entryTasks_append]
          have hcond : ¬ (some k = some uid ∧ tvTruthy uid = true) := by
            intro hc
            exact hu (Option.some.inj hc.1)
          by_cases hdu : hasKey d uid = true
          · simp [hdu, hcond]
            intro hq
            exact absurd hq hu
          · rw [Bool.not_eq_true] at hdu
            rw [hdu]
            simp [entryTasks, hu, entryTasks_of_hasKey_false d uid hdu, hcond]
    · rw [if_neg htr]
      have hcond : ¬ (some k = some uid ∧ tvTruthy uid = true) := by
        intro hc
        obtain ⟨h1, h2⟩ := hc
        cases Option.some.inj h1
        exact htr h2
      simp [hcond]
      intro hq
      subst hq
      rwa [Bool.not_eq_true] at htr

/-- Effect of one task's whole assignee list on one entry: the task gets
appended once per matching (truthy) assignee record. -/
theorem entryTasks_assignee_fold (t : Task) (uid : TVal) :
    ∀ (as : List Assignee) (d : AIndex),
      entryTasks uid (as.foldl (indexStep t) d)
        = entryTasks uid d ++ List.replicate (matchCountL uid as) t := by
  intro as
  induction as with
  | nil => intro d; simp [matchCountL]
  | cons a rest ih =>
    intro d
    rw [List.foldl_cons, ih, entryTasks_indexStep, List.append_assoc]
    congr 1
    by_cases htr : tvTruthy uid = true
    · by_cases hid : a.id = some uid
      · simp [matchCountL, htr, hid, List.filter_cons, List.replicate_succ]
      · simp [matchCountL, htr, hid, List.filter_cons]
    · simp [matchCountL, htr]

/-- The replicated-blocks reference shape of one entry's task list: each
input task, in order, replicated by its number of matching assignee
records. -/
def entrySpec (uid : TVal) : List Task → List Task
  | [] => []
  | t :: ts => List.replicate (matchCount uid t) t ++ entrySpec uid ts

/-- The entry of `uid` in the full index is exactly the reference shape. -/
theorem entryTasks_index (uid : TVal) :
    ∀ (tasks : List Task) (d : AIndex),
      entryTasks uid
          (tasks.foldl (fun d t => t.assignees.foldl (indexStep t) d) d)
        = entryTasks uid d ++ entrySpec uid tasks := by
  intro tasks
  induction tasks with
  | nil => intro d; simp [entrySpec]
  | cons t ts ih =>
    intro d
    rw [List.foldl_cons, ih, entryTasks_assignee_fold, entrySpec,
      List.append_assoc]
    rfl

/-- Occurrence counting distributes over concatenation. -/
theorem countOcc_append {α : Type} [DecidableEq α] (x : α) (l1 l2 : List α) :
    countOcc x (l1 ++ l2) = countOcc x l1 + countOcc x l2 := by
  simp [countOcc, List.filter_append]

/-- Occurrence counting on a replicated block. -/
theorem countOcc_replicate {α : Type} [DecidableEq α] (x t : α) (m : Nat) :
    countOcc x (List.replicate m t) = if x = t then m else 0 := by
  induction m with
  | zero => simp [countOcc]
  | succ m ih =>
    rw [List.replicate_succ]
    by_cases h : x = t
    · subst h
      have hstep : countOcc x (x :: List.replicate m x)
          = countOcc x (List.replicate m x) + 1 := by
        simp [countOcc, List.filter_cons]
      rw [hstep, ih]
      simp
    · have h' : ¬ t = x := fun hh => h hh.symm
      have hstep : countOcc x (t :: List.replicate m t)
          = countOcc x (List.replicate m t) := by
        simp [countOcc, List.filter_cons, h']
      rw [hstep, ih]
      simp [h]

/-- Counting inside the reference shape. -/
theorem countOcc_entrySpec (uid : TVal) (x : Task) (tasks : List Task) :
    countOcc x (entrySpec uid tasks) = countOcc x tasks * matchCount uid x := by
  induction tasks with
  | nil => simp [entrySpec, countOcc]
  | cons t ts ih =>
    rw [entrySpec, countOcc_append, countOcc_replicate, ih]
    by_cases h : x = t
    · subst h
      simp [countOcc, List.filter_cons]
      ring
    · have h' : ¬ t = x := fun hh => h hh.symm
      simp [countOcc, List.filter_cons, h, h']

/-- Closed counting formula for the index: a task `x` occurs in the entry
of `uid` exactly (occurrences of `x` in the input) × (matching truthy
assignee records of `x`) times. -/
theorem countOcc_entry (uid : TVal) (x : Task) (tasks : List Task) :
    countOcc x (entryTasks uid (get_task_assignees tasks))
      = countOcc x tasks * matchCount uid x := by
  rw [get_task_assignees, entryTasks_index uid tasks []]
  rw [show entryTasks uid ([] : AIndex) = [] from rfl, List.nil_append]
  exact countOcc_entrySpec uid x tasks

/-- C9: (i) a task occurring once in the collection, carrying exactly one
(truthy) assignee record with id `u`, appears exactly once in `u`'s task
list — so with several distinct assignees it appears once under each of
them; (ii) a task with zero assignees leaves the whole index unchanged;
(iii) the multiset of tasks stored under every member is invariant under
permutation of the input collection. -/
theorem claim9_fanout :
    (∀ (tasks : List Task) (t : Task) (u : TVal),
      countOcc t tasks = 1 → matchCount u t = 1 →
      countOcc t (entryTasks u (get_task_assignees tasks)) = 1) ∧
    (∀ (l1 l2 : List Task) (t : Task), t.assignees = [] →
      get_task_assignees (l1 ++ t :: l2) = get_task_assignees (l1 ++ l2)) ∧
    (∀ (tasks tasks' : List Task), tasks.Perm tasks' →
      ∀ (uid : TVal) (x : Task),
        countOcc x (entryTasks uid (get_task_assignees tasks))
          = countOcc x (entryTasks uid (get_task_assignees tasks'))) := by
  refine ⟨?_, ?_, ?_⟩
  · intro tasks t u h1 hm
    rw [countOcc_entry, h1, hm]
  · intro l1 l2 t h
    unfold get_task_assignees
    rw [List.foldl_append, List.foldl_append, List.foldl_cons, h]
    rfl
  · intro tasks tasks' hp uid x
    rw [countOcc_entry, countOcc_entry]
    have hc : countOcc x tasks = countOcc x tasks' := by
      simp only [countOcc, ← List.countP_eq_length_filter]
      exact hp.countP_eq _
    rw [hc]

/-- Two distinct truthy assignees for the fan-out demonstration. -/
def assigneeA : Assignee :=
  { id := some (.n 1), username := some "Alice", email := none, color := none }

/-- Second fan-out assignee. -/
def assigneeB : Assignee :=
  { id := some (.n 2), username := some "Bob", email := none, color := none }

/-- A task assigned to both `assigneeA` and `assigneeB`. -/
def taskTwoAssignees : Task :=
  { status := none, date_closed := none, date_done := none,
    assignees := [assigneeA, assigneeB] }

/-- A task with no assignees at all. -/
def taskNoAssignees : Task :=
  { status := some ⟨some "To Do", none⟩, date_closed := none,
    date_done := none, assignees := [] }

/-- An assignee record whose id is the falsy integer `0`. -/
def falsyAssignee : Assignee :=
  { id := some (.n 0), username := some "Ghost", email := none, color := none }

/-- Witness for C9: in the index of the two-assignee task, the task shows
up exactly once under id `1` and once under id `2`; an assignee-less task
leaves the index unchanged; and swapping two input tasks leaves each
member's task multiset unchanged. -/
theorem claim9_witness :
    countOcc taskTwoAssignees
        (entryTasks (TVal.n 1) (get_task_assignees [taskTwoAssignees])) = 1 ∧
    countOcc taskTwoAssignees
        (entryTasks (TVal.n 2) (get_task_assignees [taskTwoAssignees])) = 1 ∧
    get_task_assignees ([] ++ taskNoAssignees :: [taskTwoAssignees])
      = get_task_assignees ([] ++ [taskTwoAssignees]) ∧
    countOcc taskTwoAssignees
        (entryTasks (TVal.n 1) (get_task_assignees [taskTwoAssignees, taskClosedActive]))
      = countOcc taskTwoAssignees
        (entryTasks (TVal.n 1) (get_task_assignees [taskClosedActive, taskTwoAssignees])) :=
  ⟨claim9_fanout.1 [taskTwoAssignees] taskTwoAssignees (.n 1) (by decide) (by decide),
   claim9_fanout.1 [taskTwoAssignees] taskTwoAssignees (.n 2) (by decide) (by decide),
   claim9_fanout.2.1 [] [taskTwoAssignees] taskNoAssignees (by decide),
   claim9_fanout.2.2 [taskTwoAssignees, taskClosedActive]
     [taskClosedActive, taskTwoAssignees]
     (List.Perm.swap taskClosedActive taskTwoAssignees []) (.n 1) taskTwoAssignees⟩

/-- An assignee record with an absent or falsy id makes one indexing step
a no-op (lines 171-180 guard both the insertion and the append on the
truthiness of `user_id`). -/
theorem indexStep_falsy (d : AIndex) (t : Task) (a : Assignee)
    (h : optTruthy a.id = false) : indexStep t d a = d := by
  cases ha : a.id with
  | none => simp [indexStep, ha]
  | some v =>
    rw [ha] at h
    simp only [optTruthy] at h
    simp [indexStep, ha, h]

/-- One indexing step cannot create a falsy key. -/
theorem hasKey_indexStep_falsy (uid : TVal) (htr : tvTruthy uid = false)
    (t : Task) (d : AIndex) (a : Assignee) :
    hasKey (indexStep t d a) uid = hasKey d uid := by
  cases ha : a.id with
  | none => simp [indexStep, ha]
  | some k =>
    simp only [indexStep, ha]
    by_cases hktr : tvTruthy k = true
    · rw [if_pos hktr]
      have hne : ¬ (k = uid) := by
        intro hq
        subst hq
        rw [htr] at hktr
        exact Bool.false_ne_true hktr
      by_cases hk : hasKey d k = true
      · rw [if_pos hk, hasKey_appendTask]
      · rw [if_neg hk, hasKey_appendTask, hasKey_append]
        simp [hasKey, hne]
    · rw [if_neg hktr]

/-- A whole assignee-list fold cannot create a falsy key. -/
theorem hasKey_assignee_fold_falsy (uid : TVal) (htr : tvTruthy uid = false)
    (t : Task) :
    ∀ (as : List Assignee) (d : AIndex),
      hasKey (as.foldl (indexStep t) d) uid = hasKey d uid := by
  intro as
  induction as with
  | nil => intro d; rfl
  | cons a rest ih =>
    intro d
    rw [List.foldl_cons, ih, hasKey_indexStep_falsy uid htr]

/-- The full index fold cannot create a falsy key. -/
theorem hasKey_index_falsy (uid : TVal) (htr : tvTruthy uid = false) :
    ∀ (tasks : List Task) (d : AIndex),
      hasKey (tasks.foldl (fun d t => t.assignees.foldl (indexStep t) d) d) uid
        = hasKey d uid := by
  intro tasks
  induction tasks with
  | nil => intro d; rfl
  | cons t ts ih =>
    intro d
    rw [List.foldl_cons, ih, hasKey_assignee_fold_falsy uid htr]

/-- C10: an assignee record whose id is absent or falsy (`0`, `""`,
`None`) is skipped entirely by the indexer — (i) the indexing step for
such a record is the identity, (ii) no falsy id ever becomes a key of the
index of any task collection, and (iii) deleting such a record from a
task's assignee list does not change what the indexer builds. -/
theorem claim10_falsy_id_skipped :
    (∀ (d : AIndex) (t : Task) (a : Assignee),
      optTruthy a.id = false → indexStep t d a = d) ∧
    (∀ (uid : TVal), tvTruthy uid = false →
      ∀ tasks : List Task, hasKey (get_task_assignees tasks) uid = false) ∧
    (∀ (d : AIndex) (t : Task) (pre post : List Assignee) (a : Assignee),
      optTruthy a.id = false →
      (pre ++ a :: post).foldl (indexStep t) d
        = (pre ++ post).foldl (indexStep t) d) := by
  refine ⟨fun d t a h => indexStep_falsy d t a h, ?_, ?_⟩
  · intro uid htr tasks
    rw [get_task_assignees, hasKey_index_falsy uid htr tasks []]
    rfl
  · intro d t pre post a h
    rw [List.foldl_append, List.foldl_append, List.foldl_cons,
      indexStep_falsy _ t a h]

/-- Witness for C10: the record with id `0` is a no-op step, `0` is not a
key of the index of the two-assignee task, and removing the falsy record
from an assignee list changes nothing. -/
theorem claim10_witness :
    indexStep taskNoAssignees [] falsyAssignee = [] ∧
    hasKey (get_task_assignees [taskTwoAssignees]) (TVal.n 0) = false ∧
    ([falsyAssignee] ++ [assigneeA] : List Assignee).foldl
        (indexStep taskNoAssignees) []
      = ([] ++ [assigneeA] : List Assignee).foldl (indexStep taskNoAssignees) [] :=
  ⟨claim10_falsy_id_skipped.1 [] taskNoAssignees falsyAssignee (by decide),
   claim10_falsy_id_skipped.2.1 (TVal.n 0) (by decide) [taskTwoAssignees],
   claim10_falsy_id_skipped.2.2 [] taskNoAssignees [] [assigneeA] falsyAssignee
     (by decide)⟩

end ClickUp
